/- Verification of the enclave-process supervisor core
   (src/enclave_proc/mod.rs of the aws-nitro-enclaves-cli repository).

   The Rust source is shallowly embedded: byte streams become lists of
   naturals, Rust strings become lists of characters, process-wide state
   (the file-descriptor table, the dispatcher's loop state) becomes
   explicit state passing, and fallible operations return `Except`.
   External collaborators that live outside the embedded file
   (`common`, `resource_manager`, the CBOR codec, the OS) are modelled
   from the specification where the claims need them; each such
   definition carries a doc comment saying so. -/
import Mathlib

namespace EnclaveProc

/-! ## Command framing: `receive_command_args` -/

/-- Error kinds surfaced by framed reads: a short read maps to the
transport error `unexpectedEof`, a payload the codec rejects maps to the
decoding error `invalidData` (Rust `io::ErrorKind::InvalidData`). -/
inductive IoErrorKind
  | unexpectedEof
  | invalidData
deriving DecidableEq, Repr

/-- Combine a byte list little-endian: the head is the least significant
byte. Each entry is reduced modulo 256 so arbitrary naturals act as bytes. -/
def leCombine : List Nat → Nat
  | [] => 0
  | b :: rest => b % 256 + 256 * leCombine rest

/-- Modelled from the spec: `read_u64_le` lives in `common`, outside the
embedded file. Per the spec it reads a fixed-width (8-byte) little-endian
integer; any short read is a fatal transport error, not a retryable
condition. Returns the value and the unconsumed remainder of the stream. -/
def read_u64_le (s : List Nat) : Except IoErrorKind (Nat × List Nat) :=
  if 8 ≤ s.length then .ok (leCombine (s.take 8), s.drop 8)
  else .error .unexpectedEof

/-- Embedding of `Read::read_exact` as used by `receive_command_args`:
deliver exactly `n` bytes or fail with the end-of-file transport error,
never a partial result. -/
def read_exact (n : Nat) (s : List Nat) : Except IoErrorKind (List Nat × List Nat) :=
  if n ≤ s.length then .ok (s.take n, s.drop n) else .error .unexpectedEof

/-- Embedding of `receive_command_args`: read a little-endian length
prefix, read exactly that many payload bytes, then run the deserializer
on the payload. `decode` stands for `serde_cbor::from_slice`, an external
codec; a `none` result is mapped to the decoding error, mirroring the
`map_err(.. InvalidData ..)` in the source. -/
def receive_command_args {α : Type} (decode : List Nat → Option α) (s : List Nat) :
    Except IoErrorKind (α × List Nat) :=
  match read_u64_le s with
  | .error e => .error e
  | .ok (arg_size, s1) =>
    match read_exact arg_size s1 with
    | .error e => .error e
    | .ok (arg_data, s2) =>
      match decode arg_data with
      | some args => .ok (args, s2)
      | none => .error .invalidData

/-! ## Logger-identifier derivation: `get_logger_id`

The Rust source computes `enclave_id.rsplit("-enc").collect::<Vec<_>>()`
and formats `"enc-{}"` around element 0 of that vector. Strings are
embedded as lists of characters. `rsplit` scans the haystack from the
right; we embed that by scanning the reversed haystack for the reversed
needle from the left and reversing each produced token. -/

/-- Needle matching at the head of a list: `leadsWith sep s` is true iff
`s` starts with `sep`. This embeds `str::starts_with` as used by the
pattern-matching machinery underlying `split`/`rsplit`. -/
def leadsWith : List Char → List Char → Bool
  | [], _ => true
  | _ :: _, [] => false
  | a :: as, b :: bs => a == b && leadsWith as bs

/-- Occurrence test: `containsSeq sep s` is true iff `sep` occurs as a
contiguous segment of `s`. -/
def containsSeq (sep : List Char) : List Char → Bool
  | [] => leadsWith sep []
  | c :: rest => leadsWith sep (c :: rest) || containsSeq sep rest

/-- Split `s` on non-overlapping occurrences of `sep`, scanning left to
right, as Rust's `str::split` does: an empty token appears between two
adjacent separators and at the boundary when `s` starts or ends with
`sep`; a haystack with no occurrence yields the single token `s`. -/
def splitOnList (sep : List Char) (s : List Char) : List (List Char) :=
  match s with
  | [] => [[]]
  | c :: rest =>
    if h : sep ≠ [] ∧ leadsWith sep (c :: rest) = true then
      [] :: splitOnList sep (List.drop sep.length (c :: rest))
    else
      match splitOnList sep rest with
      | [] => [[c]]
      | t :: ts => (c :: t) :: ts
termination_by s.length
decreasing_by
  · have hsep : 0 < sep.length := List.length_pos.mpr h.1
    simp only [List.length_drop, List.length_cons]
    omega
  · simp only [List.length_cons]
    omega

/-- Right-to-left split, as Rust's `str::rsplit`: tokens come out in
reverse order, the first being the text after the rightmost occurrence. -/
def rsplitList (sep s : List Char) : List (List Char) :=
  (splitOnList sep.reverse s.reverse).map List.reverse

/-- The separator `"-enc"` used by `get_logger_id`. -/
def encSep : List Char := ['-', 'e', 'n', 'c']

/-- Embedding of `get_logger_id`: split the enclave identifier from the
right on `"-enc"` and put `"enc-"` in front of token 0. The Rust source
indexes `tokens[0]`, which would panic on an empty vector; the embedding
returns `none` in that case so that totality is a provable statement
rather than an assumption. -/
def get_logger_id (enclave_id : List Char) : Option (List Char) :=
  let tokens := rsplitList encSep enclave_id
  tokens[0]?.map (fun t => String.toList "enc-" ++ t)

/-! ## I/O router: `route_output_to` and `safe_route_output`

The process-wide descriptor table is embedded as a total map from
descriptor numbers to open-file-description identities, plus an
allocation counter: `dup` hands out the next unused descriptor, `dup2`
retargets an existing one. The wrapped operations (`run_enclaves` and
friends) only write through already-open descriptors, so they are
embedded as functions that do not touch the table. -/

/-- Descriptor number of standard output (`libc::STDOUT_FILENO`). -/
def STDOUT_FILENO : Nat := 1

/-- Descriptor number of standard error (`libc::STDERR_FILENO`). -/
def STDERR_FILENO : Nat := 2

/-- The process-wide descriptor table: `target fd` is the identity of
the open file description `fd` currently refers to; `nextFd` is the
lowest never-used descriptor number (allocation is modelled as strictly
increasing, which preserves the freshness `dup` relies on). -/
structure FdTable where
  target : Nat → Nat
  nextFd : Nat

/-- Embedding of `libc::dup`: allocate a fresh descriptor referring to
the same open file description as `fd`, returning the new table and the
fresh descriptor. -/
def dup (s : FdTable) (fd : Nat) : FdTable × Nat :=
  ({ target := fun i => if i = s.nextFd then s.target fd else s.target i,
     nextFd := s.nextFd + 1 },
   s.nextFd)

/-- Embedding of `libc::dup2 oldfd newfd`: make `newfd` refer to the
open file description of `oldfd`. -/
def dup2 (s : FdTable) (oldfd newfd : Nat) : FdTable :=
  { s with target := fun i => if i = newfd then s.target oldfd else s.target i }

/-- Embedding of `route_output_to`: duplicate the current standard
output, retarget both standard output and standard error onto `fd`, and
return the duplicate so the caller can undo the redirection. -/
def route_output_to (s : FdTable) (fd : Nat) : FdTable × Nat :=
  let (s1, old_fd) := dup s STDOUT_FILENO
  let s2 := dup2 s1 fd STDOUT_FILENO
  let s3 := dup2 s2 fd STDERR_FILENO
  (s3, old_fd)

/-- Embedding of `safe_route_output`: route output to the connection,
run `func` on `args` (it may fail; it mutates only `args`), then route
output to the saved descriptor; the function's status is returned as-is.
There is no early return in the source, so the second routing happens on
every path. -/
def safe_route_output {T R : Type} (s : FdTable) (args : T) (connection_fd : Nat)
    (func : T → Except String R × T) : Except String R × T × FdTable :=
  let (s1, output_fd) := route_output_to s connection_fd
  let (status, args1) := func args
  let (s3, _) := route_output_to s1 output_fd
  (status, args1, s3)

/-! ## Event loop / dispatcher: `process_event_loop`

The command enumeration and the `EnclaveManager` live in `common` and
`resource_manager`, outside the embedded file; they are modelled from
the spec where needed. The dispatcher itself — the `match` over the
received command — is embedded from the source as a step function from
loop state and command to emitted actions plus an outcome; `ok_or_exit`
failures become the `fatal` outcome carrying the source's message. -/

/-- Modelled from the spec: the protocol's command tags, listed in the
spec's data model (`Run`, `Terminate`, `TerminateComplete`,
`GetEnclaveCID`, `Describe`, `ConnectionListenerStop`); the enumeration
itself lives in `common`, outside the embedded file. -/
inductive EnclaveProcessCommandType
  | run
  | terminate
  | terminateComplete
  | getEnclaveCID
  | describe
  | connectionListenerStop
deriving DecidableEq, Repr

/-- Modelled from the spec: `EnclaveManager` lives in
`resource_manager`, outside the embedded file. Per the spec it holds the
enclave identifier assigned by a successful `Run` and the console/CID
handle, and is in an "empty" state (no handle) before `Run` succeeds. -/
structure EnclaveManager where
  enclave_id : List Char
  enclave_cid : Option Nat
deriving DecidableEq

/-- Modelled from the spec: querying the console/CID handle of an empty
manager must fail explicitly rather than silently no-op; on a populated
manager it yields the handle. -/
def EnclaveManager.get_console_resources (m : EnclaveManager) : Except String Nat :=
  match m.enclave_cid with
  | some cid => .ok cid
  | none => .error "empty enclave handle"

/-- Observable side effects of one dispatcher iteration. Thread handles
(`JoinHandle`) are identified by the number the spawn counter had when
the thread was created. -/
inductive Action
  | updateLoggerId (s : Option (List Char))
  | listenerStart (id : List Char)
  | addStreamToEpoll
  | spawnTerminate (h : Nat)
  | joinThread (h : Nat)
  | warnInvalidHandle
  | writeU64 (v : Nat)
deriving DecidableEq, Repr

/-- Modelled from the spec: `MSG_ENCLAVE_CONFIRM` is a fixed
confirmation value defined in `common`; its concrete value is irrelevant
to the claims. -/
def MSG_ENCLAVE_CONFIRM : Nat := 0xEAF

/-- State owned by one iteration of the dispatcher loop: the resource
handle, the optional termination ticket, and the spawn counter that
mints thread-handle identities. -/
structure LoopState where
  enclave_manager : EnclaveManager
  terminate_thread : Option Nat
  next_tid : Nat
deriving DecidableEq

deriving instance DecidableEq for Except

/-- Results of the external collaborators consulted during one
iteration: whether reading the run arguments framed on the connection
succeeds, the result of `run_enclaves` (run under I/O routing), whether
`conn_listener.start` succeeds, and the result of `describe_enclaves`. -/
structure IterEnv where
  runArgsOk : Bool
  runResult : Except String EnclaveManager
  listenerStartOk : Bool
  describeResult : Except String Unit
deriving DecidableEq

/-- Outcome of one dispatcher iteration: loop again in the
awaiting-command state, leave the loop (the `break` arms), or abort the
process (`ok_or_exit` on a failed operation). -/
inductive LoopOutcome
  | continue_ (st : LoopState)
  | stopped (st : LoopState)
  | fatal (msg : String)
deriving DecidableEq

/-- Embedding of `notify_terminate`: register one end of a fresh stream
pair with the listener, spawn the termination worker, and return `Some`
of its join handle (the source wraps the freshly spawned handle in
`Some` unconditionally). -/
def notify_terminate (tid : Nat) : Option Nat × List Action :=
  (some tid, [.addStreamToEpoll, .spawnTerminate tid])

/-- Embedding of the body of the `loop` in `process_event_loop`: the
`match` over the received command. Each arm mirrors the source: `Run`
reads arguments, runs the enclave under routing, updates the logger id
and starts the listener (each failure fatal with the source's message);
`Terminate` stores the ticket returned by `notify_terminate`;
`TerminateComplete` joins the outstanding ticket or warns, then breaks;
`GetEnclaveCID` writes the handle back or dies; `Describe` writes the
confirmation and describes under routing; `ConnectionListenerStop`
breaks. -/
def process_event_loop_step (st : LoopState) (env : IterEnv)
    (cmd : EnclaveProcessCommandType) : List Action × LoopOutcome :=
  match cmd with
  | .run =>
    if env.runArgsOk = false then ([], .fatal "Failed to get run arguments.")
    else
      match env.runResult with
      | .error _ => ([], .fatal "Failed to run enclave.")
      | .ok mgr =>
        if env.listenerStartOk = false then
          ([.updateLoggerId (get_logger_id mgr.enclave_id)],
           .fatal "Failed to start connection listener.")
        else
          ([.updateLoggerId (get_logger_id mgr.enclave_id), .listenerStart mgr.enclave_id],
           .continue_ { st with enclave_manager := mgr })
  | .terminate =>
    let (ticket, acts) := notify_terminate st.next_tid
    (acts, .continue_ { st with terminate_thread := ticket, next_tid := st.next_tid + 1 })
  | .terminateComplete =>
    match st.terminate_thread with
    | some h => ([.joinThread h], .stopped { st with terminate_thread := none })
    | none => ([.warnInvalidHandle], .stopped st)
  | .getEnclaveCID =>
    match st.enclave_manager.get_console_resources with
    | .ok cid => ([.writeU64 cid], .continue_ st)
    | .error _ => ([], .fatal "Failed to get enclave CID.")
  | .describe =>
    match env.describeResult with
    | .ok _ => ([.writeU64 MSG_ENCLAVE_CONFIRM], .continue_ st)
    | .error _ => ([.writeU64 MSG_ENCLAVE_CONFIRM], .fatal "Failed to describe enclave.")
  | .connectionListenerStop => ([], .stopped st)

/-- Run the dispatcher over a list of received commands (each with the
external results of its iteration), collecting the emitted actions.
`some st` means the loop is still awaiting the next command in state
`st`; `none` means it exited (normally or fatally). -/
def process_event_loop (st : LoopState) :
    List (IterEnv × EnclaveProcessCommandType) → List Action × Option LoopState
  | [] => ([], some st)
  | (env, cmd) :: rest =>
    match process_event_loop_step st env cmd with
    | (acts, .continue_ st') =>
      let (as2, r) := process_event_loop st' rest
      (acts ++ as2, r)
    | (acts, .stopped _) => (acts, none)
    | (acts, .fatal _) => (acts, none)

/-- Classifier used to state loop-shape claims: 0 for another iteration,
1 for leaving the loop, 2 for aborting the process. -/
def outcomeKind : LoopOutcome → Nat
  | .continue_ _ => 0
  | .stopped _ => 1
  | .fatal _ => 2

/-- Commands whose arm leaves the loop (`break` in the source). -/
def isTerminalCmd : EnclaveProcessCommandType → Bool
  | .terminateComplete => true
  | .connectionListenerStop => true
  | _ => false

/-! ## Daemonization: `create_enclave_process`

The sequence of OS effects is embedded as a trace of abstract actions,
parameterized by oracles for each fallible step: whether `/dev/null`
opens, whether `setsid` succeeds, what `fork` returns, and the sequence
of parent-pid readings the reparent poll observes (`none` standing for a
failed `stat_self`). -/

/-- What `fork` reported: the parent branch (with the child's pid) or
the child branch. -/
inductive ForkChoice
  | parent (child : Nat)
  | child
deriving DecidableEq

/-- One step of the daemonization trace. -/
inductive DaemonAction
  | maskSighup
  | redirectToNull (fd : Nat)
  | setsid
  | forkParentExit (code : Nat)
  | forkChild
  | readPpid (p : Nat)
  | sleepMillis (ms : Nat)
  | unmaskSighup
deriving DecidableEq, Repr

/-- Overall fate of `create_enclave_process`: the process aborted on a
failed step, the parent branch exited with the given status, or the
child finished the sequence fully detached. -/
inductive DaemonOutcome
  | aborted
  | parentExited (code : Nat)
  | detached
deriving DecidableEq, Repr

/-- Embedding of `hide_standard_descriptors`: open `/dev/null` (fatal on
failure) and `dup2` it over descriptors 0, 1 and 2 in that order. -/
def hide_standard_descriptors (openOk : Bool) : Option (List DaemonAction) :=
  if openOk then some [.redirectToNull 0, .redirectToNull 1, .redirectToNull 2]
  else none

/-- The reparent poll of `create_enclave_process`: read the own parent
pid; stop when it is 1 (init), otherwise sleep 10 milliseconds and read
again. `some true` means the poll finished, `some false` that a reading
failed (fatal), `none` that the supplied readings ran out with the loop
still going. -/
def pollReparent : List (Option Nat) → List DaemonAction × Option Bool
  | [] => ([], none)
  | r :: rest =>
    match r with
    | none => ([], some false)
    | some p =>
      if p = 1 then ([.readPpid 1], some true)
      else
        let (tr, res) := pollReparent rest
        (.readPpid p :: .sleepMillis 10 :: tr, res)

/-- Embedding of `create_enclave_process`: mask SIGHUP, hide the
standard descriptors, become session leader, fork (parent exits 0),
poll until reparented under init, restore the signal mask. Every failed
step aborts. -/
def create_enclave_process (openOk setsidOk : Bool) (forkRes : Option ForkChoice)
    (ppids : List (Option Nat)) : List DaemonAction × Option DaemonOutcome :=
  let t0 := [DaemonAction.maskSighup]
  match hide_standard_descriptors openOk with
  | none => (t0, some .aborted)
  | some t1 =>
    if setsidOk = false then (t0 ++ t1, some .aborted)
    else
      match forkRes with
      | none => (t0 ++ t1 ++ [.setsid], some .aborted)
      | some (.parent _) => (t0 ++ t1 ++ [.setsid, .forkParentExit 0], some (.parentExited 0))
      | some .child =>
        let base := t0 ++ t1 ++ [.setsid, .forkChild]
        match pollReparent ppids with
        | (tp, some true) => (base ++ tp ++ [.unmaskSighup], some .detached)
        | (tp, some false) => (base ++ tp, some .aborted)
        | (tp, none) => (base ++ tp, none)

/-! ## Helper lemmas about framed reads -/

/-- Reading the length prefix off a stream that starts with 8 bytes
yields their little-endian value and the remainder. -/
theorem read_u64_le_append (len rest : List Nat) (h : len.length = 8) :
    read_u64_le (len ++ rest) = .ok (leCombine len, rest) := by
  unfold read_u64_le
  rw [if_pos (by simp [h]), List.take_left' h, List.drop_left' h]

/-- Reading the length prefix off a stream shorter than 8 bytes is a
transport error. -/
theorem read_u64_le_short (s : List Nat) (h : s.length < 8) :
    read_u64_le s = .error .unexpectedEof := by
  unfold read_u64_le
  rw [if_neg (by omega)]

/-- An exact read of `n` bytes off a stream that starts with `n` bytes
yields them and the remainder. -/
theorem read_exact_append (n : Nat) (payload rest : List Nat) (h : payload.length = n) :
    read_exact n (payload ++ rest) = .ok (payload, rest) := by
  unfold read_exact
  rw [if_pos (by simp [h]), List.take_left' h, List.drop_left' h]

/-- An exact read of `n` bytes off a shorter stream is a transport
error, never a partial result. -/
theorem read_exact_short (n : Nat) (s : List Nat) (h : s.length < n) :
    read_exact n s = .error .unexpectedEof := by
  unfold read_exact
  rw [if_neg (by omega)]

/-- C6: `receive_command_args` first reads a fixed-width little-endian
length prefix, then reads exactly that many payload bytes; a stream too
short for the prefix or for the announced payload yields the transport
error, and a payload the deserializer rejects yields the decoding error;
on success the decoded value and the untouched remainder are returned. -/
theorem receive_command_args_framing {α : Type} (decode : List Nat → Option α)
    (len payload rest sh shortPay : List Nat)
    (hlen : len.length = 8) (hsz : leCombine len = payload.length)
    (hsh : sh.length < 8) (hshort : shortPay.length < leCombine len) :
    receive_command_args decode (len ++ (payload ++ rest)) =
      (match decode payload with
       | some v => .ok (v, rest)
       | none => .error .invalidData) ∧
    receive_command_args decode sh = .error IoErrorKind.unexpectedEof ∧
    receive_command_args decode (len ++ shortPay) = .error IoErrorKind.unexpectedEof := by
  refine ⟨?_, ?_, ?_⟩
  · simp only [receive_command_args, read_u64_le_append len (payload ++ rest) hlen, hsz,
      read_exact_append payload.length payload rest rfl]
  · simp only [receive_command_args, read_u64_le_short sh hsh]
  · simp only [receive_command_args, read_u64_le_append len shortPay hlen,
      read_exact_short (leCombine len) shortPay hshort]

/-- Witness for C6 at a concrete stream: length prefix announcing one
byte, payload `[7]` accepted by the decoder, remainder `[9]`; the empty
stream is short for the prefix; a stream whose payload is missing is
short for the exact read. -/
theorem receive_command_args_framing_witness :
    receive_command_args (fun bs => if bs = [7] then some 42 else none)
        ([1, 0, 0, 0, 0, 0, 0, 0] ++ ([7] ++ [9])) = .ok (42, [9]) ∧
    receive_command_args (fun bs => if bs = [7] then some 42 else none) [] =
      .error IoErrorKind.unexpectedEof ∧
    receive_command_args (fun bs => if bs = [7] then some 42 else none)
        ([1, 0, 0, 0, 0, 0, 0, 0] ++ []) = .error IoErrorKind.unexpectedEof := by
  have h := receive_command_args_framing (fun bs => if bs = [7] then some 42 else none)
    [1, 0, 0, 0, 0, 0, 0, 0] [7] [9] [] []
    (by decide) (by decide) (by decide) (by decide)
  simpa using h

/-! ## Router theorems -/

/-- C2: `safe_route_output` first routes both output descriptors to the
connection descriptor, runs the operation, and afterwards standard
output again refers to its pre-call target — the routing is undone
whether the operation succeeded or failed (`func` is arbitrary and may
return an error), and the operation's result is propagated unchanged. -/
theorem safe_route_output_restores {T R : Type} (s : FdTable) (args : T)
    (connection_fd : Nat) (func : T → Except String R × T)
    (hn : 2 < s.nextFd) (hc : connection_fd < s.nextFd) :
    (safe_route_output s args connection_fd func).1 = (func args).1 ∧
    (safe_route_output s args connection_fd func).2.1 = (func args).2 ∧
    (route_output_to s connection_fd).1.target STDOUT_FILENO = s.target connection_fd ∧
    (route_output_to s connection_fd).1.target STDERR_FILENO = s.target connection_fd ∧
    (safe_route_output s args connection_fd func).2.2.target STDOUT_FILENO =
      s.target STDOUT_FILENO := by
  rcases hfa : func args with ⟨status, args1⟩
  refine ⟨?_, ?_, ?_, ?_, ?_⟩ <;>
    simp only [safe_route_output, route_output_to, dup, dup2, hfa,
      STDOUT_FILENO, STDERR_FILENO] <;>
    split_ifs <;> first | rfl | omega

/-- Witness for C2 at a concrete table (identity targets, next free
descriptor 5) and a failing operation on descriptor 4: the result is the
operation's own error, and standard output's target is back to 1. -/
theorem safe_route_output_restores_witness :
    (safe_route_output ⟨fun i => i, 5⟩ 0 4
        (fun a : Nat => ((Except.error "boom" : Except String Nat), a))).1 =
      Except.error "boom" ∧
    (safe_route_output ⟨fun i => i, 5⟩ 0 4
        (fun a : Nat => ((Except.error "boom" : Except String Nat), a))).2.1 = 0 ∧
    (route_output_to ⟨fun i => i, 5⟩ 4).1.target STDOUT_FILENO = 4 ∧
    (route_output_to ⟨fun i => i, 5⟩ 4).1.target STDERR_FILENO = 4 ∧
    (safe_route_output ⟨fun i => i, 5⟩ 0 4
        (fun a : Nat => ((Except.error "boom" : Except String Nat), a))).2.2.target
      STDOUT_FILENO = 1 := by
  have h := safe_route_output_restores (⟨fun i => i, 5⟩ : FdTable) (0 : Nat) 4
    (fun a : Nat => ((Except.error "boom" : Except String Nat), a)) (by decide) (by decide)
  simpa using h

set_option maxHeartbeats 1600000 in
/-- C8: after `safe_route_output` returns, standard error also refers to
the target standard output had before the call; since `route_output_to`
saves only the old standard output, a standard error that pointed
elsewhere is not restored to its own previous target. -/
theorem safe_route_output_clobbers_stderr {T R : Type} (s : FdTable) (args : T)
    (connection_fd : Nat) (func : T → Except String R × T)
    (hn : 2 < s.nextFd) (hc : connection_fd < s.nextFd)
    (hdiff : s.target STDERR_FILENO ≠ s.target STDOUT_FILENO) :
    (safe_route_output s args connection_fd func).2.2.target STDOUT_FILENO =
      s.target STDOUT_FILENO ∧
    (safe_route_output s args connection_fd func).2.2.target STDERR_FILENO =
      s.target STDOUT_FILENO ∧
    (safe_route_output s args connection_fd func).2.2.target STDERR_FILENO ≠
      s.target STDERR_FILENO := by
  rcases hfa : func args with ⟨status, args1⟩
  have h1 : (safe_route_output s args connection_fd func).2.2.target STDOUT_FILENO =
      s.target STDOUT_FILENO := by
    simp only [safe_route_output, route_output_to, dup, dup2, hfa,
      STDOUT_FILENO, STDERR_FILENO]
    split_ifs <;> first | rfl | omega
  have h2 : (safe_route_output s args connection_fd func).2.2.target STDERR_FILENO =
      s.target STDOUT_FILENO := by
    simp only [safe_route_output, route_output_to, dup, dup2, hfa,
      STDOUT_FILENO, STDERR_FILENO]
    split_ifs <;> first | rfl | omega
  exact ⟨h1, h2, by rw [h2]; exact Ne.symm hdiff⟩

/-- Witness for C8 at a concrete table whose standard error target (7)
differs from its standard output target (1): after the call standard
error refers to 1, not to its own previous target 7. -/
theorem safe_route_output_clobbers_stderr_witness :
    (safe_route_output ⟨fun i => if i = 2 then 7 else i, 5⟩ 0 4
        (fun a : Nat => ((Except.ok a : Except String Nat), a))).2.2.target
      STDOUT_FILENO = 1 ∧
    (safe_route_output ⟨fun i => if i = 2 then 7 else i, 5⟩ 0 4
        (fun a : Nat => ((Except.ok a : Except String Nat), a))).2.2.target
      STDERR_FILENO = 1 ∧
    (safe_route_output ⟨fun i => if i = 2 then 7 else i, 5⟩ 0 4
        (fun a : Nat => ((Except.ok a : Except String Nat), a))).2.2.target
      STDERR_FILENO ≠ 7 := by
  have h := safe_route_output_clobbers_stderr
    (⟨fun i => if i = 2 then 7 else i, 5⟩ : FdTable) (0 : Nat) 4
    (fun a : Nat => ((Except.ok a : Except String Nat), a)) (by decide) (by decide)
    (by decide)
  simpa using h

/-! ## Dispatcher theorems -/

/-- The empty resource handle the loop starts from
(`EnclaveManager::default()`): no identifier, no console/CID handle. -/
def initialManager : EnclaveManager := ⟨[], none⟩

/-- The dispatcher's initial loop state: empty handle, no termination
ticket outstanding, spawn counter at zero. -/
def initialState : LoopState := ⟨initialManager, none, 0⟩

/-- A sample iteration environment in which every external collaborator
succeeds (the run result carries a populated manager). -/
def sampleEnv : IterEnv := ⟨true, .ok ⟨['x'], some 4⟩, true, .ok ()⟩

/-- C1 (counterexample): `TerminateComplete` is not
`ConnectionListenerStop`, yet its arm leaves the loop (outcome kind 1)
instead of returning to the awaiting-command state (kind 0), refuting
the claim that `ConnectionListenerStop` is the only command that does
not loop again. -/
theorem terminate_complete_not_awaiting_counterexample :
    outcomeKind (process_event_loop_step initialState sampleEnv .terminateComplete).2 = 1 ∧
    EnclaveProcessCommandType.terminateComplete ≠
      EnclaveProcessCommandType.connectionListenerStop := by
  decide

/-- C1 (amended): for every command whose action completes (the
iteration does not abort the process), the dispatcher returns to the
awaiting-command state, except that `ConnectionListenerStop` and
`TerminateComplete` leave the loop. -/
theorem process_event_loop_step_awaits_again (st : LoopState) (env : IterEnv)
    (cmd : EnclaveProcessCommandType)
    (h : outcomeKind (process_event_loop_step st env cmd).2 ≠ 2) :
    outcomeKind (process_event_loop_step st env cmd).2 =
      (if isTerminalCmd cmd then 1 else 0) := by
  cases cmd
  case run =>
    rcases env with ⟨ra, rr, ls, dr⟩
    cases ra <;> cases rr <;> cases ls <;>
      simp_all [process_event_loop_step, isTerminalCmd, outcomeKind]
  case terminate =>
    simp [process_event_loop_step, notify_terminate, outcomeKind, isTerminalCmd]
  case terminateComplete =>
    rcases hterm : st.terminate_thread with _ | hdl <;>
      simp [process_event_loop_step, hterm, outcomeKind, isTerminalCmd]
  case getEnclaveCID =>
    rcases hcid : st.enclave_manager.enclave_cid with _ | cid <;>
      simp_all [process_event_loop_step, EnclaveManager.get_console_resources,
        outcomeKind, isTerminalCmd]
  case describe =>
    rcases hdr : env.describeResult with e | u <;>
      simp_all [process_event_loop_step, outcomeKind, isTerminalCmd]
  case connectionListenerStop =>
    simp [process_event_loop_step, outcomeKind, isTerminalCmd]

/-- Witness for the amended C1: a `Terminate` iteration from the initial
state completes without aborting and loops again (kind 0), computed by
applying the theorem at that concrete input. -/
theorem process_event_loop_step_awaits_again_witness :
    outcomeKind (process_event_loop_step initialState sampleEnv .terminate).2 =
      (if isTerminalCmd .terminate then 1 else 0) :=
  process_event_loop_step_awaits_again initialState sampleEnv .terminate (by decide)

/-- C3: on `TerminateComplete` with a ticket outstanding the dispatcher
joins exactly that handle exactly once (the emitted actions are exactly
one join of it) and leaves the loop; with no ticket outstanding it only
logs the warning — no abort — and likewise leaves the loop. -/
theorem terminate_complete_join_or_warn (st1 st2 : LoopState) (env1 env2 : IterEnv)
    (hdl : Nat) (hticket : st1.terminate_thread = some hdl)
    (hnone : st2.terminate_thread = none) :
    process_event_loop_step st1 env1 .terminateComplete =
      ([Action.joinThread hdl], .stopped { st1 with terminate_thread := none }) ∧
    process_event_loop_step st2 env2 .terminateComplete =
      ([Action.warnInvalidHandle], .stopped st2) := by
  constructor <;> simp [process_event_loop_step, hticket, hnone]

/-- Witness for C3: concrete states with ticket 5 outstanding and with
none outstanding, both under the sample environment. -/
theorem terminate_complete_join_or_warn_witness :
    process_event_loop_step ⟨initialManager, some 5, 6⟩ sampleEnv .terminateComplete =
      ([Action.joinThread 5], .stopped ⟨initialManager, none, 6⟩) ∧
    process_event_loop_step initialState sampleEnv .terminateComplete =
      ([Action.warnInvalidHandle], .stopped initialState) :=
  terminate_complete_join_or_warn ⟨initialManager, some 5, 6⟩ initialState
    sampleEnv sampleEnv 5 rfl rfl

/-- C5: on `GetEnclaveCID` the dispatcher queries the resource manager's
console/CID handle; against a still-empty handle the query fails and the
iteration aborts the process (no silent no-op), while against a
populated handle the value is written back on the connection as a
fixed-width integer and the loop continues. -/
theorem get_enclave_cid_query (st1 st2 : LoopState) (env1 env2 : IterEnv) (cid : Nat)
    (hempty : st1.enclave_manager.enclave_cid = none)
    (hfull : st2.enclave_manager.enclave_cid = some cid) :
    process_event_loop_step st1 env1 .getEnclaveCID =
      ([], .fatal "Failed to get enclave CID.") ∧
    process_event_loop_step st2 env2 .getEnclaveCID =
      ([Action.writeU64 cid], .continue_ st2) := by
  constructor <;>
    simp [process_event_loop_step, EnclaveManager.get_console_resources, hempty, hfull]

/-- Witness for C5: the initial (empty) state aborts; a state whose
manager holds CID 4 writes it back and loops. -/
theorem get_enclave_cid_query_witness :
    process_event_loop_step initialState sampleEnv .getEnclaveCID =
      ([], .fatal "Failed to get enclave CID.") ∧
    process_event_loop_step ⟨⟨['x'], some 4⟩, none, 0⟩ sampleEnv .getEnclaveCID =
      ([Action.writeU64 4], .continue_ ⟨⟨['x'], some 4⟩, none, 0⟩) :=
  get_enclave_cid_query initialState ⟨⟨['x'], some 4⟩, none, 0⟩ sampleEnv sampleEnv 4 rfl rfl

/-- Any join emitted by a single dispatcher iteration is of the handle
that was outstanding when the iteration began. -/
theorem step_join_is_current (st : LoopState) (env : IterEnv)
    (cmd : EnclaveProcessCommandType) (hdl : Nat)
    (hmem : Action.joinThread hdl ∈ (process_event_loop_step st env cmd).1) :
    st.terminate_thread = some hdl := by
  cases cmd
  case run =>
    rcases env with ⟨ra, rr, ls, dr⟩
    cases ra <;> cases rr <;> cases ls <;>
      simp_all [process_event_loop_step]
  case terminate =>
    simp_all [process_event_loop_step, notify_terminate]
  case terminateComplete =>
    rcases hterm : st.terminate_thread with _ | h0 <;>
      simp_all [process_event_loop_step, hterm]
  case getEnclaveCID =>
    rcases hcid : st.enclave_manager.enclave_cid with _ | cid <;>
      simp_all [process_event_loop_step, EnclaveManager.get_console_resources]
  case describe =>
    rcases hdr : env.describeResult with e | u <;>
      simp_all [process_event_loop_step]
  case connectionListenerStop =>
    simp_all [process_event_loop_step]

/-- A continuing iteration preserves a lower bound on the outstanding
handle and on the spawn counter. -/
theorem step_preserves_bound (st : LoopState) (env : IterEnv)
    (cmd : EnclaveProcessCommandType) (st' : LoopState) (n : Nat)
    (hc : (process_event_loop_step st env cmd).2 = .continue_ st')
    (hinv : ∀ hdl, st.terminate_thread = some hdl → n ≤ hdl)
    (hnext : n ≤ st.next_tid) :
    (∀ hdl, st'.terminate_thread = some hdl → n ≤ hdl) ∧ n ≤ st'.next_tid := by
  cases cmd
  case run =>
    rcases env with ⟨ra, rr, ls, dr⟩
    cases ra <;> cases rr <;> cases ls <;>
      simp_all [process_event_loop_step] <;>
      (try subst hc) <;> simp_all
  case terminate =>
    simp only [process_event_loop_step, notify_terminate] at hc
    cases hc
    refine ⟨?_, by simp; omega⟩
    intro hdl hh
    simp at hh
    omega
  case terminateComplete =>
    rcases hterm : st.terminate_thread with _ | h0 <;>
      simp_all [process_event_loop_step, hterm]
  case getEnclaveCID =>
    rcases hcid : st.enclave_manager.enclave_cid with _ | cid <;>
      simp_all [process_event_loop_step, EnclaveManager.get_console_resources] <;>
      (try subst hc) <;> simp_all
  case describe =>
    rcases hdr : env.describeResult with e | u <;>
      simp_all [process_event_loop_step] <;> (try subst hc) <;> simp_all
  case connectionListenerStop =>
    simp_all [process_event_loop_step]

/-- Every join the loop ever emits from a state satisfying the bound is
of a handle at least the bound: handles below it are never joined. -/
theorem process_event_loop_joins_ge (cmds : List (IterEnv × EnclaveProcessCommandType))
    (st : LoopState) (n : Nat)
    (hinv : ∀ hdl, st.terminate_thread = some hdl → n ≤ hdl)
    (hnext : n ≤ st.next_tid) (hdl : Nat)
    (hmem : Action.joinThread hdl ∈ (process_event_loop st cmds).1) : n ≤ hdl := by
  induction cmds generalizing st with
  | nil => simp [process_event_loop] at hmem
  | cons ec rest ih =>
    rcases ec with ⟨env, cmd⟩
    rcases hstep : process_event_loop_step st env cmd with ⟨acts, out⟩
    have hacts : Action.joinThread hdl ∈ acts → n ≤ hdl := by
      intro hin
      have := step_join_is_current st env cmd hdl (by rw [hstep]; exact hin)
      exact hinv hdl this
    cases out with
    | continue_ st' =>
      simp only [process_event_loop, hstep] at hmem
      rcases List.mem_append.mp hmem with hin | hin
      · exact hacts hin
      · have hb := step_preserves_bound st env cmd st' n (by rw [hstep]) hinv hnext
        exact ih st' hb.1 hb.2 hin
    | stopped st' =>
      simp only [process_event_loop, hstep] at hmem
      exact hacts hmem
    | fatal msg =>
      simp only [process_event_loop, hstep] at hmem
      exact hacts hmem

/-- C10: `notify_terminate` always returns `Some`; on a `Terminate`
received while ticket `oldh` is outstanding, the new ticket
unconditionally overwrites it (the new state holds the freshly spawned
handle), the iteration emits no join, and `oldh` is never joined by any
later iteration of the loop — the previous worker's handle is dropped
unjoined. -/
theorem terminate_overwrites_ticket (st : LoopState) (oldh : Nat) (env : IterEnv)
    (cmds : List (IterEnv × EnclaveProcessCommandType))
    (hout : st.terminate_thread = some oldh) (hfresh : oldh < st.next_tid) :
    (∀ tid, (notify_terminate tid).1.isSome = true) ∧
    (process_event_loop_step st env .terminate).1 =
      [Action.addStreamToEpoll, Action.spawnTerminate st.next_tid] ∧
    (process_event_loop_step st env .terminate).2 =
      .continue_ ⟨st.enclave_manager, some st.next_tid, st.next_tid + 1⟩ ∧
    Action.joinThread oldh ∉
      (process_event_loop ⟨st.enclave_manager, some st.next_tid, st.next_tid + 1⟩
        cmds).1 := by
  refine ⟨fun tid => rfl, rfl, rfl, ?_⟩
  intro hmem
  have hge := process_event_loop_joins_ge cmds
    ⟨st.enclave_manager, some st.next_tid, st.next_tid + 1⟩
    (oldh + 1) (by intro hdl hh; simp at hh; omega) (by simp; omega) oldh hmem
  omega

/-- Witness for C10: from a state with ticket 0 outstanding and spawn
counter 1, a `Terminate` installs ticket 1; a later `TerminateComplete`
joins handle 1, and handle 0 is indeed never joined. -/
theorem terminate_overwrites_ticket_witness :
    (∀ tid, (notify_terminate tid).1.isSome = true) ∧
    (process_event_loop_step ⟨initialManager, some 0, 1⟩ sampleEnv .terminate).1 =
      [Action.addStreamToEpoll, Action.spawnTerminate 1] ∧
    (process_event_loop_step ⟨initialManager, some 0, 1⟩ sampleEnv .terminate).2 =
      .continue_ ⟨initialManager, some 1, 2⟩ ∧
    Action.joinThread 0 ∉
      (process_event_loop ⟨initialManager, some 1, 2⟩
        [(sampleEnv, .terminateComplete)]).1 :=
  terminate_overwrites_ticket ⟨initialManager, some 0, 1⟩ 0 sampleEnv
    [(sampleEnv, .terminateComplete)] rfl (by decide)

/-! ## Daemonization theorems -/

/-- The reparent poll over readings that miss (are not 1) and then hit 1
emits one read per miss followed by a 10-millisecond sleep, then the
final read of 1, and finishes. -/
theorem pollReparent_run (misses : List Nat) (hm : ∀ p ∈ misses, p ≠ 1) :
    pollReparent (misses.map some ++ [some 1]) =
      (misses.flatMap (fun p => [DaemonAction.readPpid p, DaemonAction.sleepMillis 10]) ++
        [DaemonAction.readPpid 1], some true) := by
  induction misses with
  | nil => simp [pollReparent]
  | cons p rest ih =>
    have hp : p ≠ 1 := hm p (by simp)
    have ih' := ih (fun q hq => hm q (by simp [hq]))
    simp [pollReparent, hp, ih']

/-- The reparent poll aborts when a parent-pid reading itself fails
(`stat_self` returning an error) after any number of missed readings. -/
theorem pollReparent_stat_failure (misses : List Nat) (hm : ∀ p ∈ misses, p ≠ 1) :
    pollReparent (misses.map some ++ [none]) =
      (misses.flatMap (fun p => [DaemonAction.readPpid p, DaemonAction.sleepMillis 10]),
        some false) := by
  induction misses with
  | nil => simp [pollReparent]
  | cons p rest ih =>
    have hp : p ≠ 1 := hm p (by simp)
    have ih' := ih (fun q hq => hm q (by simp [hq]))
    simp [pollReparent, hp, ih']

/-- C7: the daemonization sequence performs, in order: mask SIGHUP,
redirect descriptors 0, 1, 2 to the null device, become session leader,
fork — the parent exiting with status 0, the child continuing — then
poll the own parent pid at 10-millisecond intervals until it reads the
init pid 1, then restore the signal mask; and each step's failure aborts
the process at that step: a failure of the null redirect, of `setsid`,
of `fork`, or of a parent-pid reading during the poll. -/
theorem create_enclave_process_sequence (misses misses2 : List Nat) (c : Nat)
    (ps1 ps2 ps3 ps4 : List (Option Nat)) (f1 f2 : Option ForkChoice) (b : Bool)
    (hm : ∀ p ∈ misses, p ≠ 1) (hm2 : ∀ p ∈ misses2, p ≠ 1) :
    create_enclave_process true true (some .child) (misses.map some ++ [some 1]) =
      ([DaemonAction.maskSighup, .redirectToNull 0, .redirectToNull 1, .redirectToNull 2,
        .setsid, .forkChild] ++
        misses.flatMap (fun p => [DaemonAction.readPpid p, DaemonAction.sleepMillis 10]) ++
        [DaemonAction.readPpid 1, DaemonAction.unmaskSighup], some .detached) ∧
    create_enclave_process true true (some (.parent c)) ps1 =
      ([DaemonAction.maskSighup, .redirectToNull 0, .redirectToNull 1, .redirectToNull 2,
        .setsid, .forkParentExit 0], some (.parentExited 0)) ∧
    create_enclave_process false b f1 ps2 = ([DaemonAction.maskSighup], some .aborted) ∧
    create_enclave_process true false f2 ps3 =
      ([DaemonAction.maskSighup, .redirectToNull 0, .redirectToNull 1, .redirectToNull 2],
        some .aborted) ∧
    create_enclave_process true true none ps4 =
      ([DaemonAction.maskSighup, .redirectToNull 0, .redirectToNull 1, .redirectToNull 2,
        .setsid], some .aborted) ∧
    create_enclave_process true true (some .child) (misses2.map some ++ [none]) =
      ([DaemonAction.maskSighup, .redirectToNull 0, .redirectToNull 1, .redirectToNull 2,
        .setsid, .forkChild] ++
        misses2.flatMap (fun p => [DaemonAction.readPpid p, DaemonAction.sleepMillis 10]),
        some .aborted) := by
  refine ⟨?_, ?_, ?_, ?_, ?_, ?_⟩
  · simp [create_enclave_process, hide_standard_descriptors, pollReparent_run misses hm]
  · simp [create_enclave_process, hide_standard_descriptors]
  · simp [create_enclave_process, hide_standard_descriptors]
  · simp [create_enclave_process, hide_standard_descriptors]
  · simp [create_enclave_process, hide_standard_descriptors]
  · simp [create_enclave_process, hide_standard_descriptors,
      pollReparent_stat_failure misses2 hm2]

/-- Witness for C7: one missed reading of 3 before the reading of 1; the
full trace shows the masked-fork-poll-unmask order, the parent branch
exits 0, and each induced failure aborts — including a failed parent-pid
reading after the miss of 3. -/
theorem create_enclave_process_sequence_witness :
    create_enclave_process true true (some ForkChoice.child) [some 3, some 1] =
      ([DaemonAction.maskSighup, .redirectToNull 0, .redirectToNull 1, .redirectToNull 2,
        .setsid, .forkChild, .readPpid 3, .sleepMillis 10, .readPpid 1, .unmaskSighup],
        some .detached) ∧
    create_enclave_process true true (some (ForkChoice.parent 99)) [] =
      ([DaemonAction.maskSighup, .redirectToNull 0, .redirectToNull 1, .redirectToNull 2,
        .setsid, .forkParentExit 0], some (.parentExited 0)) ∧
    create_enclave_process false true none [] = ([DaemonAction.maskSighup], some .aborted) ∧
    create_enclave_process true false none [] =
      ([DaemonAction.maskSighup, .redirectToNull 0, .redirectToNull 1, .redirectToNull 2],
        some .aborted) ∧
    create_enclave_process true true none [] =
      ([DaemonAction.maskSighup, .redirectToNull 0, .redirectToNull 1, .redirectToNull 2,
        .setsid], some .aborted) ∧
    create_enclave_process true true (some ForkChoice.child) [some 3, none] =
      ([DaemonAction.maskSighup, .redirectToNull 0, .redirectToNull 1, .redirectToNull 2,
        .setsid, .forkChild, .readPpid 3, .sleepMillis 10], some .aborted) := by
  have h := create_enclave_process_sequence [3] [3] 99 [] [] [] [] none none true
    (by decide) (by decide)
  simpa using h

/-! ## Logger-identifier theorems

`get_logger_id` splits from the right, which the embedding realizes on
the reversed haystack; the lemmas below relate head-matching and
occurrences across reversal, show the reversed separator cannot start
inside text it does not occur in (it has no self-overlap), and derive
the head token of the split. -/

/-- The reverse of the `"-enc"` separator, as matched on the reversed
haystack. -/
def sepR : List Char := ['c', 'n', 'e', '-']

/-- The defined reverse separator is the reverse of the separator. -/
theorem sepR_eq : encSep.reverse = sepR := by decide

/-- Head-matching ignores anything appended beyond the needle's length. -/
theorem leadsWith_append_of_le (sep : List Char) :
    ∀ (u x : List Char), sep.length ≤ u.length →
      leadsWith sep (u ++ x) = leadsWith sep u := by
  induction sep with
  | nil => intro u x _; rfl
  | cons a as ih =>
    intro u x h
    cases u with
    | nil => simp at h
    | cons b bs =>
      simp only [List.cons_append, leadsWith, List.append_eq]
      rw [ih bs x (by simpa using h)]

/-- The reversed separator has no self-overlap: it cannot match starting
strictly inside a nonempty block `u` it does not match at the head of,
even when the block is followed by the separator itself. -/
theorem leadsWith_no_straddle (u p : List Char) (hne : u ≠ [])
    (hlw : leadsWith sepR u = false) :
    leadsWith sepR (u ++ (sepR ++ p)) = false := by
  match u with
  | [] => exact absurd rfl hne
  | [a] => simp [sepR, leadsWith]
  | [a, b] => simp [sepR, leadsWith]
  | [a, b, d] => simp [sepR, leadsWith]
  | a :: b :: d :: e :: rest =>
    rw [leadsWith_append_of_le sepR (a :: b :: d :: e :: rest) (sepR ++ p)
      (by simp [sepR])]
    exact hlw

/-- A split never produces the empty token list. -/
theorem splitOnList_ne_nil (sep s : List Char) : splitOnList sep s ≠ [] := by
  cases s with
  | nil => simp [splitOnList]
  | cons c rest =>
    rw [splitOnList]
    split
    · simp
    · split <;> simp

/-- Splitting a haystack with no occurrence of the needle yields the
haystack as the single token. -/
theorem splitOnList_no_occurrence (sep : List Char) :
    ∀ s : List Char, containsSeq sep s = false → splitOnList sep s = [s] := by
  intro s
  induction s with
  | nil => intro _; simp [splitOnList]
  | cons c rest ih =>
    intro h
    simp only [containsSeq, Bool.or_eq_false_iff] at h
    rw [splitOnList, dif_neg (fun hc => by simp [h.1] at hc), ih h.2]

/-- The split of `t ++ sepR ++ p`, when the needle does not occur in
`t`, has `t` as its head token: the first match found is the explicit
separator occurrence right after `t`. -/
theorem splitOnList_head_after (t : List Char) :
    ∀ p : List Char, containsSeq sepR t = false →
      ∃ ts, splitOnList sepR (t ++ (sepR ++ p)) = t :: ts := by
  induction t with
  | nil =>
    intro p _
    refine ⟨splitOnList sepR p, ?_⟩
    have hshape : ([] : List Char) ++ (sepR ++ p) = 'c' :: ('n' :: 'e' :: '-' :: p) := rfl
    rw [hshape, splitOnList, dif_pos ⟨by simp [sepR], by simp [sepR, leadsWith]⟩]
    rfl
  | cons a t' ih =>
    intro p h
    simp only [containsSeq, Bool.or_eq_false_iff] at h
    obtain ⟨ts, hts⟩ := ih p h.2
    have hstr : leadsWith sepR ((a :: t') ++ (sepR ++ p)) = false :=
      leadsWith_no_straddle (a :: t') p (by simp) h.1
    have hshape : (a :: t') ++ (sepR ++ p) = a :: (t' ++ (sepR ++ p)) := rfl
    rw [hshape] at hstr
    refine ⟨ts, ?_⟩
    rw [hshape, splitOnList, dif_neg (fun hc => by simp [hstr] at hc), hts]

/-- Head-matching succeeds exactly on lists beginning with the needle. -/
theorem leadsWith_iff (sep : List Char) :
    ∀ s : List Char, leadsWith sep s = true ↔ ∃ r, s = sep ++ r := by
  induction sep with
  | nil => intro s; simpa [leadsWith] using ⟨s, rfl⟩
  | cons a as ih =>
    intro s
    cases s with
    | nil => simp [leadsWith]
    | cons b bs =>
      simp only [leadsWith, Bool.and_eq_true, beq_iff_eq, ih bs, List.cons_append,
        List.cons.injEq]
      constructor
      · rintro ⟨hab, r, hr⟩
        exact ⟨r, hab.symm, hr⟩
      · rintro ⟨r, hab, hr⟩
        exact ⟨hab.symm, r, hr⟩

/-- Occurrence as decomposition: the needle occurs in `s` exactly when
`s` splits around one of its copies. -/
theorem containsSeq_iff (sep : List Char) :
    ∀ s : List Char, containsSeq sep s = true ↔ ∃ u v, s = u ++ (sep ++ v) := by
  intro s
  induction s with
  | nil =>
    simp only [containsSeq, leadsWith_iff]
    constructor
    · rintro ⟨r, hr⟩
      exact ⟨[], r, hr⟩
    · rintro ⟨u, v, huv⟩
      rcases List.append_eq_nil.mp huv.symm with ⟨_, h2⟩
      exact ⟨v, h2.symm⟩
  | cons c rest ih =>
    simp only [containsSeq, Bool.or_eq_true, leadsWith_iff, ih]
    constructor
    · rintro (⟨r, hr⟩ | ⟨u, v, huv⟩)
      · exact ⟨[], r, by simpa using hr⟩
      · exact ⟨c :: u, v, by simp [huv]⟩
    · rintro ⟨u, v, huv⟩
      cases u with
      | nil => exact Or.inl ⟨v, by simpa using huv⟩
      | cons x u' =>
        right
        simp only [List.cons_append, List.cons.injEq] at huv
        exact ⟨u', v, huv.2⟩

/-- Occurrence is invariant under simultaneously reversing needle and
haystack. -/
theorem containsSeq_reverse (sep s : List Char) :
    containsSeq sep.reverse s.reverse = containsSeq sep s := by
  have key : containsSeq sep.reverse s.reverse = true ↔ containsSeq sep s = true := by
    rw [containsSeq_iff, containsSeq_iff]
    constructor
    · rintro ⟨u, v, huv⟩
      refine ⟨v.reverse, u.reverse, ?_⟩
      have h2 := congrArg List.reverse huv
      simpa [List.reverse_append, List.append_assoc] using h2
    · rintro ⟨u, v, huv⟩
      refine ⟨v.reverse, u.reverse, ?_⟩
      subst huv
      simp [List.reverse_append, List.append_assoc]
  cases h1 : containsSeq sep s
  · cases h2 : containsSeq sep.reverse s.reverse
    · rfl
    · exact absurd (key.mp h2) (by simp [h1])
  · exact key.mpr h1

/-- C4: for an identifier of the form `p ++ "-enc" ++ t` where `t`
contains no further `"-enc"` — that is, `t` is the text after the
identifier's last `"-enc"` segment — the derived logging identifier is
`"enc-"` followed by `t`. -/
theorem get_logger_id_after_last_enc (s p t : List Char)
    (hs : s = p ++ (encSep ++ t)) (hno : containsSeq encSep t = false) :
    get_logger_id s = some (String.toList "enc-" ++ t) := by
  subst hs
  have hrev : (p ++ (encSep ++ t)).reverse = t.reverse ++ (sepR ++ p.reverse) := by
    rw [← sepR_eq]
    simp [List.reverse_append, List.append_assoc]
  have hnoR : containsSeq sepR t.reverse = false := by
    rw [← sepR_eq, containsSeq_reverse]
    exact hno
  obtain ⟨ts, hts⟩ := splitOnList_head_after t.reverse p.reverse hnoR
  unfold get_logger_id rsplitList
  rw [sepR_eq, hrev, hts]
  simp

/-- Witness for C4: the identifier `"i-abc-enc1234"` decomposes as
`"i-abc" ++ "-enc" ++ "1234"`, and the derived logging identifier is
`"enc-1234"`. -/
theorem get_logger_id_after_last_enc_witness :
    get_logger_id (String.toList "i-abc-enc1234") = some (String.toList "enc-1234") := by
  have h := get_logger_id_after_last_enc (String.toList "i-abc-enc1234")
    (String.toList "i-abc") (String.toList "1234") (by decide) (by decide)
  exact h.trans (by decide)

/-- C9: `get_logger_id` is total — splitting always yields at least one
token, so indexing token 0 cannot panic — and on an identifier with no
`"-enc"` segment the result is `"enc-"` followed by the whole input. -/
theorem get_logger_id_total (s1 s2 : List Char)
    (hno : containsSeq encSep s2 = false) :
    (get_logger_id s1).isSome = true ∧
    get_logger_id s2 = some (String.toList "enc-" ++ s2) := by
  constructor
  · unfold get_logger_id rsplitList
    obtain ⟨t, ts, hts⟩ :=
      List.exists_cons_of_ne_nil (splitOnList_ne_nil encSep.reverse s1.reverse)
    rw [hts]
    simp
  · have hnoR : containsSeq sepR s2.reverse = false := by
      rw [← sepR_eq, containsSeq_reverse]
      exact hno
    unfold get_logger_id rsplitList
    rw [sepR_eq, splitOnList_no_occurrence sepR s2.reverse hnoR]
    simp

/-- Witness for C9: totality at `"i-abc-enc7"`, and the no-segment case
at `"hello"`, whose derived logging identifier is `"enc-hello"`. -/
theorem get_logger_id_total_witness :
    (get_logger_id (String.toList "i-abc-enc7")).isSome = true ∧
    get_logger_id (String.toList "hello") =
      some (String.toList "enc-" ++ String.toList "hello") :=
  get_logger_id_total (String.toList "i-abc-enc7") (String.toList "hello") (by decide)

end EnclaveProc
